import Mathlib

/-!
# fake-slow-registry

A shallow embedding of `fake-slow-registry/main.go`: the startup path
(`newRouter`, `verifyIndex`, `run`) and the `/index.yaml` handler with its
weighted semaphore, request counter, simulated delay and response writer.

The helm index library, the YAML codec, the weighted semaphore and `net/http`
are external packages.  The index library and the codec are taken as a
parameter (`Lib`); the semaphore is a counter of permits in use; the response
writer is the ordered log of the calls the handler makes on it.
-/

namespace FakeSlowRegistry

/-! ## Data model -/

/-- Go `error` values, represented by their message text. -/
abbrev Err := String

/-- Go `[]byte`. -/
abbrev Bytes := String

/-- The three command-line flags (`listenAddr`, `max-index-concurrency`,
`simulate-index-duration`), with the defaults of lines 22-24.  The duration is
a signed number of time units, as `time.Duration` is. -/
structure Config where
  listenAddr : String := ":8080"
  indexConcurrency : Int := 1
  simulatedIndexDuration : Int := 0
  deriving DecidableEq, Repr

/-- The fields of `chart.Metadata` that `newRouter` sets. -/
structure Metadata where
  apiVersion : String
  version : String
  name : String
  appVersion : String
  deriving DecidableEq, Repr

/-- The part of `repo.ChartVersion` that a catalog entry consists of: its
metadata (name and version among it), its archive locations and its digest. -/
structure ChartVersion where
  metadata : Metadata
  urls : List String
  digest : String
  deriving DecidableEq, Repr

/-- The external index library and YAML codec, over an index document type
`Doc`: `repo.NewIndexFile`, `IndexFile.MustAdd`, `yaml.Marshal`,
`yaml.Unmarshal` into a fresh `repo.IndexFile`, and `IndexFile.Get`. -/
structure Lib (Doc : Type) where
  newIndexFile : Doc
  mustAdd : Doc → Metadata → String → String → String → Except Err Doc
  marshal : Doc → Except Err Bytes
  unmarshal : Bytes → Except Err Doc
  get : Doc → String → String → Except Err ChartVersion

/-- What is registered under a pattern of the `http.ServeMux`: the index
handler closure (which captures the semaphore size and `indexBytes`) or the
file server of a directory. -/
inductive Handler where
  | indexYaml (semSize : Int) (indexBytes : Bytes)
  | fileServer (dir : String)
  deriving DecidableEq, Repr

/-- The `http.ServeMux`: the registered patterns, in registration order. -/
abbrev ServeMux := List (String × Handler)

/-! ## Startup: `verifyIndex`, `newRouter`, `run` -/

/-- Lines 119-133. -/
def verifyIndex {Doc : Type} (lib : Lib Doc) (index : Doc) : Except Err Bytes :=
  match lib.marshal index with
  | .error err => .error ("failed to marshal index.yaml: " ++ err)
  | .ok bytes =>
    match lib.unmarshal bytes with
    | .error err => .error ("failed to unmarshal index.yaml: " ++ err)
    | .ok index' =>
      match lib.get index' "config-chart" "0.1.0" with
      | .error err => .error ("error looking for chart in index.yaml: " ++ err)
      | .ok _ => .ok bytes

/-- The metadata of the first `MustAdd` (lines 70-75). -/
def guestbookMetadata : Metadata :=
  { apiVersion := "v2", version := "0.0.0", name := "guestbook", appVersion := "0.1.0" }

/-- The metadata of the second `MustAdd` (lines 78-83). -/
def configChartMetadata : Metadata :=
  { apiVersion := "v2", version := "0.1.0", name := "config-chart", appVersion := "0.1.0" }

/-- The digest both entries are added with. -/
def chartDigest : String :=
  "a60ac9484e3c20c298cbc83052ffdfb5c25d27843685e38cfec66221c43cb491"

/-- Lines 69-85: the two `MustAdd` calls on a new index file. -/
def buildIndex {Doc : Type} (lib : Lib Doc) : Except Err Doc :=
  match lib.mustAdd lib.newIndexFile guestbookMetadata
      "charts/guestbook-0.0.0.tgz" "" chartDigest with
  | .error err => .error err
  | .ok index1 =>
    match lib.mustAdd index1 configChartMetadata
        "charts/config-chart-0.1.0.tgz" "" chartDigest with
    | .error err => .error err
    | .ok index2 => .ok index2

/-- Lines 67-117.  The result is what `newRouter` returns together with the
state of `mux` after the call (the mux is mutated in place). -/
def newRouter {Doc : Type} (lib : Lib Doc) (cfg : Config) (mux : ServeMux) :
    Except Err ServeMux × ServeMux :=
  match buildIndex lib with
  | .error err => (.error err, mux)
  | .ok index =>
    match verifyIndex lib index with
    | .error err => (.error err, mux)
    | .ok indexBytes =>
      let mux1 := mux ++ [("/index.yaml", Handler.indexYaml cfg.indexConcurrency indexBytes)]
      let mux2 := mux1 ++ [("/charts/", Handler.fileServer "")]
      (.ok mux2, mux2)

/-- What `run` does that is visible outside it, in order. -/
inductive RunEvent where
  | newServer (addr : String) (router : ServeMux)
  | listenAndServe
  | awaitDone
  | shutdown (graceSeconds : Nat)
  deriving DecidableEq, Repr

/-- The environment of a successful start: whether `ListenAndServe` fails with
an error other than `http.ErrServerClosed`, and what `Shutdown` returns. -/
structure RunEnv where
  listenErr : Option Err
  shutdownErr : Option Err
  deriving DecidableEq, Repr

/-- How `run` ends: it returns (with or without an error), or the listener
goroutine ends the process through `log.Fatalf`. -/
inductive RunOutcome where
  | returned (err : Option Err)
  | fatal (msg : String)
  deriving DecidableEq, Repr

/-- Lines 45-65. -/
def run {Doc : Type} (lib : Lib Doc) (cfg : Config) (env : RunEnv) (mux : ServeMux) :
    RunOutcome × List RunEvent :=
  match (newRouter lib cfg mux).1 with
  | .error err => (.returned (some err), [])
  | .ok router =>
    let started := [RunEvent.newServer cfg.listenAddr router, RunEvent.listenAndServe]
    match env.listenErr with
    | some err => (.fatal ("listen: " ++ err), started)
    | none => (.returned env.shutdownErr, started ++ [RunEvent.awaitDone, RunEvent.shutdown 2])

/-! ## The `/index.yaml` handler -/

/-- The mutable state the handler closure captures: the permits in use of the
weighted semaphore `sem` (line 68) and the request counter `count` (line 90,
an `int32`). -/
structure Shared where
  cur : Int
  count : Int
  deriving DecidableEq, Repr

/-- The state right after `newRouter`: no permit in use, counter zero. -/
def Shared.init : Shared := { cur := 0, count := 0 }

/-- Two's-complement wrap-around of `int32` arithmetic. -/
def wrapInt32 (x : Int) : Int := (x + 2 ^ 31) % 2 ^ 32 - 2 ^ 31

/-- Modelled from the spec: the weighted semaphore is an external package.  A
successful `Acquire(ctx, 1)` borrows one permit. -/
def semAcquire (s : Shared) : Shared := { s with cur := s.cur + 1 }

/-- Modelled from the spec: the weighted semaphore is an external package.
`Release(1)` returns one permit to the pool. -/
def semRelease (s : Shared) : Shared := { s with cur := s.cur - 1 }

/-- Modelled from the spec: the weighted semaphore is an external package.  A
permit is available when fewer than `size` are in use. -/
def semAvailable (size : Int) (s : Shared) : Bool := decide (s.cur + 1 ≤ size)

/-- What one request meets while it is handled: what `sem.Acquire` returns
(`none` for success, else the context's error), the time after the handler
enters the `select` at which `req.Context().Done()` becomes ready (`none`:
never), which case the `select` takes when both become ready at the same
instant, and what `rw.Write` returns. -/
structure ReqEnv where
  acquire : Option Err
  cancelAfter : Option Nat
  tieDone : Bool
  writeErr : Option Err
  deriving DecidableEq, Repr

/-- The calls the handler makes, in order. -/
inductive Event where
  | acquire (err : Option Err)
  | httpError (msg : String) (code : Nat)
  | addCount (n : Int)
  | logServing (n : Int)
  | selectDone
  | selectTimer
  | write (b : Bytes) (err : Option Err)
  | logWriteFailed (err : Err)
  | release
  deriving DecidableEq, Repr

/-- The case a `select` over `ctx.Done()` and `time.After d` takes: the one
whose channel is ready first. -/
inductive Selected where
  | done
  | timer
  deriving DecidableEq, Repr

/-- Lines 101-106, the race between cancellation and the timer of `d > 0`. -/
def selectCase (d : Int) (env : ReqEnv) : Selected :=
  match env.cancelAfter with
  | none => .timer
  | some c =>
    if (c : Int) < d then .done
    else if (c : Int) = d ∧ env.tieDone = true then .done
    else .timer

/-- Lines 92-94: `sem.Acquire`, and `http.Error` when it fails.  There is no
`return` in the failure branch. -/
def acquirePhase (env : ReqEnv) (s : Shared) : Shared × List Event :=
  match env.acquire with
  | some err => (s, [Event.acquire (some err), Event.httpError err 500])
  | none => (semAcquire s, [Event.acquire none])

/-- Lines 97-98: `atomic.AddInt32(&count, 1)` and the log line. -/
def countPhase (s : Shared) : Shared × List Event :=
  let n := wrapInt32 (s.count + 1)
  ({ s with count := n }, [Event.addCount n, Event.logServing n])

/-- Lines 109-113. -/
def writePhase (indexBytes : Bytes) (env : ReqEnv) : List Event :=
  match env.writeErr with
  | none => [Event.write indexBytes none]
  | some err =>
    [Event.write indexBytes (some err), Event.logWriteFailed err, Event.httpError err 500]

/-- Lines 100-113: the delay and, unless the request is cancelled in it, the
write. -/
def delayAndWrite (cfg : Config) (indexBytes : Bytes) (env : ReqEnv) : List Event :=
  if cfg.simulatedIndexDuration > 0 then
    match selectCase cfg.simulatedIndexDuration env with
    | .done => [Event.selectDone, Event.httpError "context canceled" 500]
    | .timer => Event.selectTimer :: writePhase indexBytes env
  else
    writePhase indexBytes env

/-- Lines 91-114, one run of the handler closure: the acquire, the registration
of the deferred release (line 95, reached on every path), the body, and the
deferred `sem.Release(1)` when the body returns. -/
def indexHandler (cfg : Config) (indexBytes : Bytes) (env : ReqEnv) (s : Shared) :
    Shared × List Event :=
  let (s1, t1) := acquirePhase env s
  let (s2, t2) := countPhase s1
  let t3 := delayAndWrite cfg indexBytes env
  (semRelease s2, t1 ++ t2 ++ t3 ++ [Event.release])

/-- Lines 91-114 with lines 100-107 (the latency injector) removed. -/
def indexHandlerNoInjector (indexBytes : Bytes) (env : ReqEnv) (s : Shared) :
    Shared × List Event :=
  let (s1, t1) := acquirePhase env s
  let (s2, t2) := countPhase s1
  let t3 := writePhase indexBytes env
  (semRelease s2, t1 ++ t2 ++ t3 ++ [Event.release])

/-! ## The response and the counts read off a run -/

/-- The status of the response: the first call on the response writer fixes
it, `http.Error` to its code and a bare `Write` to 200. -/
def responseStatus : List Event → Option Nat
  | [] => none
  | Event.httpError _ code :: _ => some code
  | Event.write _ _ :: _ => some 200
  | _ :: rest => responseStatus rest

/-- The payloads that reach the response body, in order: the message of each
`http.Error` and the bytes of each successful `Write`. -/
def responseBody : List Event → List Bytes
  | [] => []
  | Event.httpError msg _ :: rest => msg :: responseBody rest
  | Event.write b none :: rest => b :: responseBody rest
  | _ :: rest => responseBody rest

/-- Whether `rw.Write` was called with `b`, whatever it returned. -/
def writeCalled (b : Bytes) (t : List Event) : Bool :=
  t.any fun e => match e with
    | Event.write b' _ => decide (b' = b)
    | _ => false

/-- Whether the handler entered the `select` of the delay. -/
def selectEntered (t : List Event) : Bool :=
  t.any fun e => match e with
    | Event.selectDone => true
    | Event.selectTimer => true
    | _ => false

/-- The number of `sem.Release(1)` calls. -/
def releaseCount (t : List Event) : Nat := t.count Event.release

/-- The number of `sem.Acquire` calls that returned no error. -/
def acquireOkCount (t : List Event) : Nat := t.count (Event.acquire none)

/-- The ordinals the run logged. -/
def loggedOrdinals : List Event → List Int
  | [] => []
  | Event.logServing n :: rest => n :: loggedOrdinals rest
  | _ :: rest => loggedOrdinals rest

/-! ## Concurrent requests

Each request runs the handler in its own goroutine.  The steps of one request
are the phases above; the steps of different requests interleave freely. -/

/-- Where a request stands in the handler: in `sem.Acquire` (line 92), at the
counter (line 97), in the delay (lines 100-107), at the write (lines 109-113),
returning with the deferred release pending, or finished. -/
inductive Pc where
  | acquiring
  | counting
  | delaying
  | writing
  | releasing
  | finished
  deriving DecidableEq, Repr

/-- One in-flight request: what it meets, where it stands, what it did. -/
structure Req where
  env : ReqEnv
  pc : Pc
  trace : List Event
  deriving DecidableEq, Repr

/-- A request that has just arrived. -/
def Req.arrive (env : ReqEnv) : Req := { env := env, pc := .acquiring, trace := [] }

/-- The server while requests are in flight. -/
structure Sys where
  shared : Shared
  reqs : List Req
  deriving DecidableEq, Repr

/-- One step of one request.  A request in `sem.Acquire` whose context is not
cancelled can only step when a permit is available; every other step is always
enabled. -/
def stepReq (cfg : Config) (indexBytes : Bytes) (s : Shared) (r : Req) :
    Option (Shared × Req) :=
  match r.pc with
  | .acquiring =>
    if r.env.acquire.isSome || semAvailable cfg.indexConcurrency s then
      let (s1, t1) := acquirePhase r.env s
      some (s1, { r with pc := .counting, trace := r.trace ++ t1 })
    else none
  | .counting =>
    let (s1, t1) := countPhase s
    let next := if cfg.simulatedIndexDuration > 0 then Pc.delaying else Pc.writing
    some (s1, { r with pc := next, trace := r.trace ++ t1 })
  | .delaying =>
    match selectCase cfg.simulatedIndexDuration r.env with
    | .done =>
      some (s, { r with pc := .releasing,
                        trace := r.trace ++ [Event.selectDone, Event.httpError "context canceled" 500] })
    | .timer => some (s, { r with pc := .writing, trace := r.trace ++ [Event.selectTimer] })
  | .writing =>
    some (s, { r with pc := .releasing, trace := r.trace ++ writePhase indexBytes r.env })
  | .releasing =>
    some (semRelease s, { r with pc := .finished, trace := r.trace ++ [Event.release] })
  | .finished => none

/-- The request with index `i` takes its next step. -/
def step (cfg : Config) (indexBytes : Bytes) (sys : Sys) (i : Nat) : Option Sys :=
  match sys.reqs.get? i with
  | none => none
  | some r =>
    match stepReq cfg indexBytes sys.shared r with
    | none => none
    | some (s1, r1) => some { shared := s1, reqs := sys.reqs.set i r1 }

/-- A schedule: which request steps next, in order. -/
def runSchedule (cfg : Config) (indexBytes : Bytes) : Sys → List Nat → Option Sys
  | sys, [] => some sys
  | sys, i :: rest =>
    match step cfg indexBytes sys i with
    | none => none
    | some sys1 => runSchedule cfg indexBytes sys1 rest

/-- Whether a request is past the admission point: `sem.Acquire` has returned
and the handler has not yet released. -/
def Pc.pastAdmission : Pc → Bool
  | .counting => true
  | .delaying => true
  | .writing => true
  | .releasing => true
  | _ => false

/-- The number of requests past the admission point. -/
def Sys.pastAdmission (sys : Sys) : Nat :=
  (sys.reqs.filter fun r => r.pc.pastAdmission).length

/-- The number of requests in the delay or the write phase. -/
def Sys.inDelayOrWrite (sys : Sys) : Nat :=
  (sys.reqs.filter fun r => decide (r.pc = .delaying) || decide (r.pc = .writing)).length

/-- The number of requests whose acquire has succeeded. -/
def Sys.accepted (sys : Sys) : Nat :=
  (sys.reqs.filter fun r => decide (0 < acquireOkCount r.trace)).length

/-- The ordinals logged so far, request by request. -/
def Sys.ordinals (sys : Sys) : List (List Int) :=
  sys.reqs.map fun r => loggedOrdinals r.trace

/-- The server right after startup with the given requests arrived. -/
def Sys.start (envs : List ReqEnv) : Sys :=
  { shared := Shared.init, reqs := envs.map Req.arrive }

/-- The invariant of a server none of whose requests has a failing acquire. -/
def Sys.Bounded (size : Int) (sys : Sys) : Prop :=
  (∀ r ∈ sys.reqs, r.env.acquire = none)
  ∧ sys.shared.cur = (sys.pastAdmission : Int)
  ∧ sys.shared.cur ≤ size

/-- One request stepped on its own until it has finished, within `fuel` steps. -/
def runSolo (cfg : Config) (indexBytes : Bytes) : Nat → Shared → Req → Option (Shared × Req)
  | 0, s, r => if r.pc = .finished then some (s, r) else none
  | fuel + 1, s, r =>
    if r.pc = .finished then some (s, r)
    else
      match stepReq cfg indexBytes s r with
      | none => none
      | some (s1, r1) => runSolo cfg indexBytes fuel s1 r1

/-- Modelled from the spec: the index library and the YAML codec are external
packages.  Their contract, as far as the round trip of the catalog needs it:
a lookup that succeeds on a document succeeds with the same entry on the
document decoded from its encoding; after `MustAdd` with an empty base URL the
lookup of the added `(name, version)` returns the entry with the metadata, the
file name as its only URL and the digest it was added with; and `MustAdd` keeps
the lookups of every other `(name, version)`. -/
structure Lib.Lawful {Doc : Type} (lib : Lib Doc) : Prop where
  roundtrip : ∀ (d d' : Doc) (b : Bytes) (name version : String) (cv : ChartVersion),
    lib.marshal d = .ok b → lib.unmarshal b = .ok d' →
    lib.get d name version = .ok cv → lib.get d' name version = .ok cv
  get_added : ∀ (d d' : Doc) (md : Metadata) (filename digest : String),
    lib.mustAdd d md filename "" digest = .ok d' →
    lib.get d' md.name md.version
      = .ok { metadata := md, urls := [filename], digest := digest }
  get_kept : ∀ (d d' : Doc) (md : Metadata) (filename digest name version : String)
    (cv : ChartVersion),
    lib.mustAdd d md filename "" digest = .ok d' →
    (name ≠ md.name ∨ version ≠ md.version) →
    lib.get d name version = .ok cv → lib.get d' name version = .ok cv

/-! ## Stand-ins for the external library

Small instances of `Lib`, used to run the startup path on concrete inputs. -/

/-- Whether a chart version is the entry `(name, version)`. -/
def sameEntry (name version : String) (cv : ChartVersion) : Bool :=
  decide (cv.metadata.name = name) && decide (cv.metadata.version = version)

/-- The entry the first `MustAdd` adds. -/
def guestbookEntry : ChartVersion :=
  { metadata := guestbookMetadata, urls := ["charts/guestbook-0.0.0.tgz"], digest := chartDigest }

/-- The entry the second `MustAdd` adds. -/
def configChartEntry : ChartVersion :=
  { metadata := configChartMetadata, urls := ["charts/config-chart-0.1.0.tgz"],
    digest := chartDigest }

/-- The serialized form the stand-in codec gives the two-entry catalog. -/
def stubBytes : Bytes := "entries: guestbook-0.0.0 config-chart-0.1.0"

/-- A stand-in library: documents are entry lists, `mustAdd` appends and
rejects a duplicate `(name, version)`, `get` searches, and the codec knows the
two-entry catalog only, which it round-trips. -/
def stubLib : Lib (List ChartVersion) where
  newIndexFile := []
  mustAdd := fun d md filename _ digest =>
    if d.any (sameEntry md.name md.version) then .error "duplicate entry"
    else .ok (d ++ [{ metadata := md, urls := [filename], digest := digest }])
  marshal := fun d =>
    if d = [guestbookEntry, configChartEntry] then .ok stubBytes
    else .error "unsupported document"
  unmarshal := fun b =>
    if b = stubBytes then .ok [guestbookEntry, configChartEntry]
    else .error "cannot parse"
  get := fun d name version =>
    match d.find? (sameEntry name version) with
    | some cv => .ok cv
    | none => .error ("no chart version found for " ++ name ++ "-" ++ version)

/-- A stand-in library whose encoder always fails. -/
def brokenLib : Lib (List ChartVersion) :=
  { stubLib with marshal := fun _ => .error "cannot encode" }

/-- The router a successful startup on the stand-in library returns. -/
def stubRouter : ServeMux :=
  [("/index.yaml", Handler.indexYaml 1 stubBytes), ("/charts/", Handler.fileServer "")]

/-! ## Sample requests -/

/-- A request that is admitted at once, is never cancelled and whose write
succeeds. -/
def plainEnv : ReqEnv :=
  { acquire := none, cancelAfter := none, tieDone := false, writeErr := none }

/-- A request whose context is cancelled while it waits in `sem.Acquire`, so
that the acquire returns the context's error. -/
def rejectedEnv : ReqEnv :=
  { acquire := some "context canceled", cancelAfter := some 0, tieDone := true,
    writeErr := none }

/-- An admitted request whose client goes away 100 time units into the delay. -/
def leavingEnv : ReqEnv :=
  { acquire := none, cancelAfter := some 100, tieDone := false, writeErr := none }

/-- An admitted request whose client goes away 6000 time units after the
handler enters the delay. -/
def lateEnv : ReqEnv :=
  { acquire := none, cancelAfter := some 6000, tieDone := true, writeErr := none }

/-- The shared state after seven requests have come and gone. -/
def Shared.later : Shared := { cur := 0, count := 7 }

/-- The shared state while one earlier request holds the only permit. -/
def Shared.oneHeld : Shared := { cur := 1, count := 1 }

/-! ## Startup -/

/-- The error cases of `buildIndex`, read off the two `MustAdd` results. -/
theorem buildIndex_error {Doc : Type} (lib : Lib Doc) (e : Err)
    (h : lib.mustAdd lib.newIndexFile guestbookMetadata
          "charts/guestbook-0.0.0.tgz" "" chartDigest = .error e
        ∨ ∃ index1, lib.mustAdd lib.newIndexFile guestbookMetadata
              "charts/guestbook-0.0.0.tgz" "" chartDigest = .ok index1
            ∧ lib.mustAdd index1 configChartMetadata
              "charts/config-chart-0.1.0.tgz" "" chartDigest = .error e) :
    buildIndex lib = .error e := by
  unfold buildIndex
  rcases h with h | ⟨index1, h1, h2⟩
  · rw [h]
  · rw [h1]; dsimp only; rw [h2]

/-- What a successful `newRouter` has done: the catalog was built, validated to
`indexBytes`, and the two handlers were registered after what `mux` held. -/
theorem newRouter_ok {Doc : Type} (lib : Lib Doc) (cfg : Config) (mux router : ServeMux)
    (h : (newRouter lib cfg mux).1 = .ok router) :
    ∃ index indexBytes, buildIndex lib = .ok index ∧ verifyIndex lib index = .ok indexBytes
      ∧ router = mux ++ [("/index.yaml", Handler.indexYaml cfg.indexConcurrency indexBytes)]
                  ++ [("/charts/", Handler.fileServer "")] := by
  unfold newRouter at h
  split at h
  · cases h
  · rename_i index hb
    split at h
    · cases h
    · rename_i indexBytes hv
      simp only [Except.ok.injEq] at h
      exact ⟨index, indexBytes, hb, hv, h.symm⟩

/-- What a successful `verifyIndex` has checked. -/
theorem verifyIndex_ok {Doc : Type} (lib : Lib Doc) (index : Doc) (bytes : Bytes) :
    verifyIndex lib index = .ok bytes ↔
      lib.marshal index = .ok bytes ∧
        ∃ index' cv, lib.unmarshal bytes = .ok index' ∧
          lib.get index' "config-chart" "0.1.0" = .ok cv := by
  constructor
  · intro h
    unfold verifyIndex at h
    split at h
    · cases h
    · rename_i b hm
      split at h
      · cases h
      · rename_i index' hu
        split at h
        · cases h
        · rename_i cv hg
          cases h
          exact ⟨hm, index', cv, hu, hg⟩
  · rintro ⟨hm, index', cv, hu, hg⟩
    unfold verifyIndex
    rw [hm]; dsimp only; rw [hu]; dsimp only; rw [hg]

/-- C7: `verifyIndex` returns bytes exactly when marshalling succeeds,
unmarshalling the marshalled bytes succeeds and the lookup of
`("config-chart", "0.1.0")` in the round-tripped document succeeds, and then
the bytes are the marshal output; each of the three failures, checked in that
order, gives no bytes and its own error. -/
theorem verifyIndex_contract {Doc : Type} (lib : Lib Doc) (index : Doc) :
    ((∃ bytes, verifyIndex lib index = .ok bytes) ↔
        ∃ bytes index' cv, lib.marshal index = .ok bytes ∧ lib.unmarshal bytes = .ok index' ∧
          lib.get index' "config-chart" "0.1.0" = .ok cv)
    ∧ (∀ bytes, verifyIndex lib index = .ok bytes → lib.marshal index = .ok bytes)
    ∧ (∀ err, lib.marshal index = .error err →
        verifyIndex lib index = .error ("failed to marshal index.yaml: " ++ err))
    ∧ (∀ bytes err, lib.marshal index = .ok bytes → lib.unmarshal bytes = .error err →
        verifyIndex lib index = .error ("failed to unmarshal index.yaml: " ++ err))
    ∧ (∀ bytes index' err, lib.marshal index = .ok bytes → lib.unmarshal bytes = .ok index' →
        lib.get index' "config-chart" "0.1.0" = .error err →
        verifyIndex lib index = .error ("error looking for chart in index.yaml: " ++ err)) := by
  refine ⟨⟨?_, ?_⟩, ?_, ?_, ?_, ?_⟩
  · rintro ⟨bytes, h⟩
    obtain ⟨hm, index', cv, hu, hg⟩ := (verifyIndex_ok lib index bytes).1 h
    exact ⟨bytes, index', cv, hm, hu, hg⟩
  · rintro ⟨bytes, index', cv, hm, hu, hg⟩
    exact ⟨bytes, (verifyIndex_ok lib index bytes).2 ⟨hm, index', cv, hu, hg⟩⟩
  · intro bytes h
    exact ((verifyIndex_ok lib index bytes).1 h).1
  · intro err hm
    unfold verifyIndex; rw [hm]
  · intro bytes err hm hu
    unfold verifyIndex; rw [hm]; dsimp only; rw [hu]
  · intro bytes index' err hm hu hg
    unfold verifyIndex; rw [hm]; dsimp only; rw [hu]; dsimp only; rw [hg]

/-- What a successful `buildIndex` has done: both `MustAdd` calls succeeded. -/
theorem buildIndex_ok {Doc : Type} (lib : Lib Doc) (index : Doc)
    (h : buildIndex lib = .ok index) :
    ∃ index1, lib.mustAdd lib.newIndexFile guestbookMetadata
          "charts/guestbook-0.0.0.tgz" "" chartDigest = .ok index1
      ∧ lib.mustAdd index1 configChartMetadata
          "charts/config-chart-0.1.0.tgz" "" chartDigest = .ok index := by
  unfold buildIndex at h
  split at h
  · cases h
  · rename_i index1 h1
    split at h
    · cases h
    · rename_i index2 h2
      cases h
      exact ⟨index1, h1, h2⟩

/-- What the code itself checks of the served bytes: whenever startup succeeds
they decode, and the lookup of `("config-chart", "0.1.0")` in the decoded
document succeeds. -/
theorem served_bytes_roundtrip_known_entry {Doc : Type} (lib : Lib Doc) (cfg : Config)
    (mux router : ServeMux) (h : (newRouter lib cfg mux).1 = .ok router) :
    ∃ indexBytes index' cv,
      ("/index.yaml", Handler.indexYaml cfg.indexConcurrency indexBytes) ∈ router
      ∧ lib.unmarshal indexBytes = .ok index'
      ∧ lib.get index' "config-chart" "0.1.0" = .ok cv := by
  obtain ⟨index, indexBytes, _, hv, hr⟩ := newRouter_ok lib cfg mux router h
  obtain ⟨_, index', cv, hu, hg⟩ := (verifyIndex_ok lib index indexBytes).1 hv
  refine ⟨indexBytes, index', cv, ?_, hu, hg⟩
  subst hr
  simp

/-- The stand-in library keeps the contract of the external library. -/
theorem stubLib_lawful : stubLib.Lawful := by
  refine ⟨?_, ?_, ?_⟩
  · intro d d' b name version cv hm hu hg
    simp only [stubLib] at hm hu
    split at hm
    · rename_i hd
      cases hm
      rw [if_pos rfl] at hu
      cases hu
      rw [← hd]; exact hg
    · cases hm
  · intro d d' md filename digest h
    simp only [stubLib] at h ⊢
    split at h
    · cases h
    · rename_i hany
      cases h
      have hnone : List.find? (sameEntry md.name md.version) d = none := by
        rw [List.find?_eq_none]
        intro x hx hp
        exact hany (List.any_eq_true.2 ⟨x, hx, hp⟩)
      simp [List.find?_append, hnone, sameEntry]
  · intro d d' md filename digest name version cv h _ hg
    simp only [stubLib] at h hg ⊢
    split at h
    · cases h
    · cases h
      split at hg
      · rename_i found hfound
        cases hg
        simp [List.find?_append, hfound]
      · cases hg

/-- C8: whenever startup succeeds on a library that keeps its contract (the
codec round trip keeps lookups, `Get` returns what `MustAdd` stored),
deserializing the bytes the handler serves yields a document in which both
`("guestbook", "0.0.0")` and `("config-chart", "0.1.0")` are found, each with
the name, version, archive path and digest it was added with. -/
theorem served_bytes_contain_catalog {Doc : Type} (lib : Lib Doc) (cfg : Config)
    (mux router : ServeMux) (hlaw : lib.Lawful)
    (h : (newRouter lib cfg mux).1 = .ok router) :
    ∃ indexBytes index',
      ("/index.yaml", Handler.indexYaml cfg.indexConcurrency indexBytes) ∈ router
      ∧ lib.unmarshal indexBytes = .ok index'
      ∧ lib.get index' "guestbook" "0.0.0"
          = .ok { metadata := { apiVersion := "v2", version := "0.0.0", name := "guestbook",
                                appVersion := "0.1.0" },
                  urls := ["charts/guestbook-0.0.0.tgz"],
                  digest := "a60ac9484e3c20c298cbc83052ffdfb5c25d27843685e38cfec66221c43cb491" }
      ∧ lib.get index' "config-chart" "0.1.0"
          = .ok { metadata := { apiVersion := "v2", version := "0.1.0", name := "config-chart",
                                appVersion := "0.1.0" },
                  urls := ["charts/config-chart-0.1.0.tgz"],
                  digest := "a60ac9484e3c20c298cbc83052ffdfb5c25d27843685e38cfec66221c43cb491" } := by
  obtain ⟨index, indexBytes, hb, hv, hr⟩ := newRouter_ok lib cfg mux router h
  obtain ⟨hm, index', _, hu, _⟩ := (verifyIndex_ok lib index indexBytes).1 hv
  obtain ⟨index1, h1, h2⟩ := buildIndex_ok lib index hb
  have hg1 := hlaw.get_added _ _ _ _ _ h1
  have hg1' := hlaw.get_kept _ _ _ _ _ "guestbook" "0.0.0" _ h2 (Or.inl (by decide)) hg1
  have hg2 := hlaw.get_added _ _ _ _ _ h2
  refine ⟨indexBytes, index', ?_, hu, ?_, ?_⟩
  · subst hr; simp
  · exact hlaw.roundtrip _ _ _ _ _ _ hm hu hg1'
  · exact hlaw.roundtrip _ _ _ _ _ _ hm hu hg2

/-- C8 on the stand-in library. -/
theorem served_bytes_contain_catalog_witness :
    stubLib.Lawful
    ∧ (newRouter stubLib {} []).1 = .ok stubRouter
    ∧ ∃ indexBytes index',
      ("/index.yaml", Handler.indexYaml ({} : Config).indexConcurrency indexBytes) ∈ stubRouter
      ∧ stubLib.unmarshal indexBytes = .ok index'
      ∧ stubLib.get index' "guestbook" "0.0.0"
          = .ok { metadata := { apiVersion := "v2", version := "0.0.0", name := "guestbook",
                                appVersion := "0.1.0" },
                  urls := ["charts/guestbook-0.0.0.tgz"],
                  digest := "a60ac9484e3c20c298cbc83052ffdfb5c25d27843685e38cfec66221c43cb491" }
      ∧ stubLib.get index' "config-chart" "0.1.0"
          = .ok { metadata := { apiVersion := "v2", version := "0.1.0", name := "config-chart",
                                appVersion := "0.1.0" },
                  urls := ["charts/config-chart-0.1.0.tgz"],
                  digest := "a60ac9484e3c20c298cbc83052ffdfb5c25d27843685e38cfec66221c43cb491" } :=
  ⟨stubLib_lawful, rfl,
    served_bytes_contain_catalog stubLib {} [] stubRouter stubLib_lawful rfl⟩

/-- C9: if one of the two `MustAdd` calls or `verifyIndex` fails with `e`,
`newRouter` returns `e` and leaves the mux as it was (no handler registered),
and `run` returns `e` having neither constructed the server nor called
`ListenAndServe`. -/
theorem startup_failure_serves_nothing {Doc : Type} (lib : Lib Doc) (cfg : Config)
    (env : RunEnv) (mux : ServeMux) (e : Err)
    (h : lib.mustAdd lib.newIndexFile guestbookMetadata
          "charts/guestbook-0.0.0.tgz" "" chartDigest = .error e
        ∨ (∃ index1, lib.mustAdd lib.newIndexFile guestbookMetadata
              "charts/guestbook-0.0.0.tgz" "" chartDigest = .ok index1
            ∧ lib.mustAdd index1 configChartMetadata
              "charts/config-chart-0.1.0.tgz" "" chartDigest = .error e)
        ∨ (∃ index1 index2, lib.mustAdd lib.newIndexFile guestbookMetadata
              "charts/guestbook-0.0.0.tgz" "" chartDigest = .ok index1
            ∧ lib.mustAdd index1 configChartMetadata
              "charts/config-chart-0.1.0.tgz" "" chartDigest = .ok index2
            ∧ verifyIndex lib index2 = .error e)) :
    newRouter lib cfg mux = (.error e, mux)
    ∧ run lib cfg env mux = (.returned (some e), []) := by
  have hr : newRouter lib cfg mux = (.error e, mux) := by
    rcases h with h | ⟨index1, h1, h2⟩ | ⟨index1, index2, h1, h2, hv⟩
    · unfold newRouter
      rw [buildIndex_error lib e (Or.inl h)]
    · unfold newRouter
      rw [buildIndex_error lib e (Or.inr ⟨index1, h1, h2⟩)]
    · have hb : buildIndex lib = .ok index2 := by
        unfold buildIndex
        rw [h1]; dsimp only; rw [h2]
      unfold newRouter
      rw [hb]; dsimp only; rw [hv]
  refine ⟨hr, ?_⟩
  unfold run
  rw [hr]

/-- C9 on the stand-in library whose encoder fails. -/
theorem startup_failure_serves_nothing_witness :
    newRouter brokenLib {} [] = (.error "failed to marshal index.yaml: cannot encode", [])
    ∧ run brokenLib {} { listenErr := none, shutdownErr := none } []
        = (.returned (some "failed to marshal index.yaml: cannot encode"), []) :=
  startup_failure_serves_nothing brokenLib {} { listenErr := none, shutdownErr := none } []
    "failed to marshal index.yaml: cannot encode"
    (Or.inr (Or.inr ⟨[guestbookEntry], [guestbookEntry, configChartEntry], rfl, rfl, rfl⟩))

/-! ## The handler on one request -/

/-- The select of a delay `d` takes the timer case when the context is
cancelled, if at all, only after `d` has elapsed. -/
theorem selectCase_timer (d : Int) (env : ReqEnv)
    (hc : ∀ c : Nat, env.cancelAfter = some c → d < (c : Int)) :
    selectCase d env = .timer := by
  unfold selectCase
  cases hca : env.cancelAfter with
  | none => rfl
  | some c =>
    have hlt : d < (c : Int) := hc c hca
    have h1 : ¬ (c : Int) < d := by omega
    have h2 : ¬ ((c : Int) = d ∧ env.tieDone = true) := by
      intro h; omega
    simp only [h1, h2, if_false]

/-- The run of an admitted request whose context is not cancelled before the
delay has elapsed and whose write succeeds. -/
theorem indexHandler_success (cfg : Config) (indexBytes : Bytes) (env : ReqEnv) (s : Shared)
    (hacq : env.acquire = none)
    (hc : 0 < cfg.simulatedIndexDuration →
      ∀ c : Nat, env.cancelAfter = some c → cfg.simulatedIndexDuration < (c : Int))
    (hw : env.writeErr = none) :
    responseStatus (indexHandler cfg indexBytes env s).2 = some 200
    ∧ responseBody (indexHandler cfg indexBytes env s).2 = [indexBytes] := by
  unfold indexHandler acquirePhase countPhase delayAndWrite writePhase
  rw [hacq, hw]
  by_cases hd : cfg.simulatedIndexDuration > 0
  · rw [if_pos hd, selectCase_timer cfg.simulatedIndexDuration env (hc hd)]
    simp [responseStatus, responseBody]
  · rw [if_neg hd]
    simp [responseStatus, responseBody]

/-- C6: after a successful startup the handler registered for `/index.yaml`
holds exactly the bytes `verifyIndex` returned, and any two requests that are
admitted, whose context is not cancelled before the delay has elapsed (never,
or later than `D`) and whose write succeeds each get status 200 and these
bytes, untransformed, as the whole body; so their bodies are identical,
whatever the requests and the shared state (ordinal, permits) they met. -/
theorem served_body_is_verified_bytes {Doc : Type} (lib : Lib Doc) (cfg : Config)
    (mux router : ServeMux) (env1 env2 : ReqEnv) (s1 s2 : Shared)
    (h : (newRouter lib cfg mux).1 = .ok router)
    (ha1 : env1.acquire = none) (ha2 : env2.acquire = none)
    (hc1 : 0 < cfg.simulatedIndexDuration →
      ∀ c : Nat, env1.cancelAfter = some c → cfg.simulatedIndexDuration < (c : Int))
    (hc2 : 0 < cfg.simulatedIndexDuration →
      ∀ c : Nat, env2.cancelAfter = some c → cfg.simulatedIndexDuration < (c : Int))
    (hw1 : env1.writeErr = none) (hw2 : env2.writeErr = none) :
    ∃ index indexBytes, buildIndex lib = .ok index ∧ verifyIndex lib index = .ok indexBytes
      ∧ ("/index.yaml", Handler.indexYaml cfg.indexConcurrency indexBytes) ∈ router
      ∧ responseStatus (indexHandler cfg indexBytes env1 s1).2 = some 200
      ∧ responseBody (indexHandler cfg indexBytes env1 s1).2 = [indexBytes]
      ∧ responseStatus (indexHandler cfg indexBytes env2 s2).2 = some 200
      ∧ responseBody (indexHandler cfg indexBytes env2 s2).2 = [indexBytes]
      ∧ responseBody (indexHandler cfg indexBytes env1 s1).2
          = responseBody (indexHandler cfg indexBytes env2 s2).2 := by
  obtain ⟨index, indexBytes, hb, hv, hr⟩ := newRouter_ok lib cfg mux router h
  obtain ⟨hst1, hbody1⟩ := indexHandler_success cfg indexBytes env1 s1 ha1 hc1 hw1
  obtain ⟨hst2, hbody2⟩ := indexHandler_success cfg indexBytes env2 s2 ha2 hc2 hw2
  refine ⟨index, indexBytes, hb, hv, ?_, hst1, hbody1, hst2, hbody2, ?_⟩
  · subst hr; simp
  · rw [hbody1, hbody2]

/-- C6 on the stand-in library with a delay of 5000: a request that is never
cancelled, served first, and one cancelled 6000 after it entered the delay,
served eighth. -/
theorem served_body_is_verified_bytes_witness :
    (newRouter stubLib { simulatedIndexDuration := 5000 } []).1 = .ok stubRouter
    ∧ plainEnv.cancelAfter = none
    ∧ lateEnv.cancelAfter = some 6000
    ∧ ∃ index indexBytes, buildIndex stubLib = .ok index
      ∧ verifyIndex stubLib index = .ok indexBytes
      ∧ ("/index.yaml",
          Handler.indexYaml ({ simulatedIndexDuration := 5000 } : Config).indexConcurrency
            indexBytes) ∈ stubRouter
      ∧ responseStatus
          (indexHandler { simulatedIndexDuration := 5000 } indexBytes plainEnv Shared.init).2
          = some 200
      ∧ responseBody
          (indexHandler { simulatedIndexDuration := 5000 } indexBytes plainEnv Shared.init).2
          = [indexBytes]
      ∧ responseStatus
          (indexHandler { simulatedIndexDuration := 5000 } indexBytes lateEnv Shared.later).2
          = some 200
      ∧ responseBody
          (indexHandler { simulatedIndexDuration := 5000 } indexBytes lateEnv Shared.later).2
          = [indexBytes]
      ∧ responseBody
          (indexHandler { simulatedIndexDuration := 5000 } indexBytes plainEnv Shared.init).2
          = responseBody
          (indexHandler { simulatedIndexDuration := 5000 } indexBytes lateEnv Shared.later).2 :=
  ⟨rfl, rfl, rfl,
    served_body_is_verified_bytes stubLib { simulatedIndexDuration := 5000 } [] stubRouter
      plainEnv lateEnv Shared.init Shared.later rfl rfl rfl
      (fun _ c hc => by cases hc)
      (fun _ c hc => by cases hc; decide)
      rfl rfl⟩

/-- C4: an admitted request handled with delay `D > 0` whose context is
cancelled before `D` elapses runs acquire, count, the `Done` case of the
select, `http.Error` with "context canceled" and status 500, and the release;
its response has status 500 and that message as its only body, `rw.Write` is
never called, exactly one permit is released and the permits in use are back
at their value before the request. -/
theorem delay_cancelled_contract (cfg : Config) (indexBytes : Bytes) (env : ReqEnv)
    (s : Shared) (c : Nat)
    (hacq : env.acquire = none)
    (hd : 0 < cfg.simulatedIndexDuration)
    (hc : env.cancelAfter = some c)
    (hlt : (c : Int) < cfg.simulatedIndexDuration) :
    (indexHandler cfg indexBytes env s).2
        = [Event.acquire none, Event.addCount (wrapInt32 (s.count + 1)),
            Event.logServing (wrapInt32 (s.count + 1)), Event.selectDone,
            Event.httpError "context canceled" 500, Event.release]
    ∧ responseStatus (indexHandler cfg indexBytes env s).2 = some 500
    ∧ responseBody (indexHandler cfg indexBytes env s).2 = ["context canceled"]
    ∧ (∀ b, writeCalled b (indexHandler cfg indexBytes env s).2 = false)
    ∧ releaseCount (indexHandler cfg indexBytes env s).2 = 1
    ∧ (indexHandler cfg indexBytes env s).1.cur = s.cur := by
  have hsel : selectCase cfg.simulatedIndexDuration env = .done := by
    unfold selectCase
    rw [hc]; dsimp only; rw [if_pos hlt]
  have ht : (indexHandler cfg indexBytes env s).2
      = [Event.acquire none, Event.addCount (wrapInt32 (s.count + 1)),
          Event.logServing (wrapInt32 (s.count + 1)), Event.selectDone,
          Event.httpError "context canceled" 500, Event.release] := by
    unfold indexHandler acquirePhase countPhase delayAndWrite
    rw [hacq, if_pos hd, hsel]
    simp [semAcquire]
  have hs : (indexHandler cfg indexBytes env s).1.cur = s.cur := by
    unfold indexHandler acquirePhase countPhase
    rw [hacq]
    simp [semAcquire, semRelease]
  refine ⟨ht, ?_, ?_, ?_, ?_, hs⟩
  · rw [ht]; rfl
  · rw [ht]; rfl
  · intro b; rw [ht]; rfl
  · rw [ht]; simp [releaseCount]

/-- C4 at a delay of 5000 with the client gone after 100. -/
theorem delay_cancelled_contract_witness :
    (indexHandler { simulatedIndexDuration := 5000 } stubBytes leavingEnv Shared.init).2
        = [Event.acquire none, Event.addCount (wrapInt32 (Shared.init.count + 1)),
            Event.logServing (wrapInt32 (Shared.init.count + 1)), Event.selectDone,
            Event.httpError "context canceled" 500, Event.release]
    ∧ responseStatus
        (indexHandler { simulatedIndexDuration := 5000 } stubBytes leavingEnv Shared.init).2
        = some 500
    ∧ responseBody
        (indexHandler { simulatedIndexDuration := 5000 } stubBytes leavingEnv Shared.init).2
        = ["context canceled"]
    ∧ (∀ b, writeCalled b
        (indexHandler { simulatedIndexDuration := 5000 } stubBytes leavingEnv Shared.init).2
        = false)
    ∧ releaseCount
        (indexHandler { simulatedIndexDuration := 5000 } stubBytes leavingEnv Shared.init).2 = 1
    ∧ (indexHandler { simulatedIndexDuration := 5000 } stubBytes leavingEnv Shared.init).1.cur
        = Shared.init.cur :=
  delay_cancelled_contract { simulatedIndexDuration := 5000 } stubBytes leavingEnv Shared.init
    100 rfl (by decide) rfl (by decide)

/-- C5: an admitted request handled with delay `D = 0` never enters the
select: its run is acquire, count, the write phase, release; it is the run of
the handler without the latency injector, it does not depend on when (or
whether) the request's context is cancelled, and `rw.Write` is called with the
index bytes. -/
theorem zero_delay_skips_injector (cfg : Config) (indexBytes : Bytes) (env : ReqEnv)
    (s : Shared)
    (hacq : env.acquire = none)
    (hd : cfg.simulatedIndexDuration = 0) :
    indexHandler cfg indexBytes env s = indexHandlerNoInjector indexBytes env s
    ∧ selectEntered (indexHandler cfg indexBytes env s).2 = false
    ∧ (indexHandler cfg indexBytes env s).2
        = [Event.acquire none, Event.addCount (wrapInt32 (s.count + 1)),
            Event.logServing (wrapInt32 (s.count + 1))]
          ++ writePhase indexBytes env ++ [Event.release]
    ∧ (∀ cancelAfter tieDone,
        indexHandler cfg indexBytes
            { env with cancelAfter := cancelAfter, tieDone := tieDone } s
          = indexHandler cfg indexBytes env s)
    ∧ writeCalled indexBytes (indexHandler cfg indexBytes env s).2 = true := by
  have hnot : ¬ cfg.simulatedIndexDuration > 0 := by rw [hd]; decide
  have ht : (indexHandler cfg indexBytes env s).2
      = [Event.acquire none, Event.addCount (wrapInt32 (s.count + 1)),
          Event.logServing (wrapInt32 (s.count + 1))]
        ++ writePhase indexBytes env ++ [Event.release] := by
    unfold indexHandler acquirePhase countPhase delayAndWrite
    rw [hacq, if_neg hnot]
    simp [semAcquire]
  refine ⟨?_, ?_, ht, ?_, ?_⟩
  · unfold indexHandler indexHandlerNoInjector delayAndWrite
    rw [if_neg hnot]
  · rw [ht]
    unfold writePhase
    cases env.writeErr <;> rfl
  · intro cancelAfter tieDone
    unfold indexHandler delayAndWrite
    simp only [if_neg hnot]
    rfl
  · rw [ht]
    unfold writePhase
    cases env.writeErr <;> simp [writeCalled]

/-- C5 at the default configuration, on a request whose context is already
cancelled when it is admitted. -/
theorem zero_delay_skips_injector_witness :
    indexHandler {} stubBytes { plainEnv with cancelAfter := some 0, tieDone := true }
        Shared.init
      = indexHandlerNoInjector stubBytes { plainEnv with cancelAfter := some 0, tieDone := true }
        Shared.init
    ∧ selectEntered (indexHandler {} stubBytes
        { plainEnv with cancelAfter := some 0, tieDone := true } Shared.init).2 = false
    ∧ (indexHandler {} stubBytes
        { plainEnv with cancelAfter := some 0, tieDone := true } Shared.init).2
        = [Event.acquire none, Event.addCount (wrapInt32 (Shared.init.count + 1)),
            Event.logServing (wrapInt32 (Shared.init.count + 1))]
          ++ writePhase stubBytes { plainEnv with cancelAfter := some 0, tieDone := true }
          ++ [Event.release]
    ∧ (∀ cancelAfter tieDone,
        indexHandler {} stubBytes
            { ({ plainEnv with cancelAfter := some 0, tieDone := true } : ReqEnv) with
              cancelAfter := cancelAfter, tieDone := tieDone } Shared.init
          = indexHandler {} stubBytes
              { plainEnv with cancelAfter := some 0, tieDone := true } Shared.init)
    ∧ writeCalled stubBytes (indexHandler {} stubBytes
        { plainEnv with cancelAfter := some 0, tieDone := true } Shared.init).2 = true :=
  zero_delay_skips_injector {} stubBytes { plainEnv with cancelAfter := some 0, tieDone := true }
    Shared.init rfl rfl

/-- An admitted request acquires once and releases once, on each of its exits,
and leaves the permits in use as it found them. -/
theorem admitted_request_releases_once (cfg : Config) (indexBytes : Bytes) (env : ReqEnv)
    (s : Shared) (hacq : env.acquire = none) :
    acquireOkCount (indexHandler cfg indexBytes env s).2 = 1
    ∧ releaseCount (indexHandler cfg indexBytes env s).2 = 1
    ∧ (indexHandler cfg indexBytes env s).1.cur = s.cur := by
  unfold indexHandler acquirePhase countPhase delayAndWrite writePhase
  rw [hacq]
  refine ⟨?_, ?_, ?_⟩
  · by_cases hd : cfg.simulatedIndexDuration > 0
    · cases hsel : selectCase cfg.simulatedIndexDuration env <;>
        cases hw : env.writeErr <;> simp [acquireOkCount, hd]
    · cases hw : env.writeErr <;> simp [acquireOkCount, hd]
  · by_cases hd : cfg.simulatedIndexDuration > 0
    · cases hsel : selectCase cfg.simulatedIndexDuration env <;>
        cases hw : env.writeErr <;> simp [releaseCount, hd]
    · cases hw : env.writeErr <;> simp [releaseCount, hd]
  · simp [semAcquire, semRelease]

/-! ## Concurrent requests: one request alone, and the bound without failed acquires -/

/-- A request stepped on its own through the phases does what one run of the
handler does. -/
theorem runSolo_eq_indexHandler (cfg : Config) (indexBytes : Bytes) (env : ReqEnv) (s : Shared)
    (h : env.acquire.isSome = true ∨ semAvailable cfg.indexConcurrency s = true) :
    runSolo cfg indexBytes 5 s (Req.arrive env)
      = some ((indexHandler cfg indexBytes env s).1,
          { env := env, pc := .finished, trace := (indexHandler cfg indexBytes env s).2 }) := by
  cases hacq : env.acquire with
  | some e =>
    by_cases hd : cfg.simulatedIndexDuration > 0
    · cases hsel : selectCase cfg.simulatedIndexDuration env <;>
        simp [runSolo, stepReq, Req.arrive, indexHandler, acquirePhase, countPhase,
          delayAndWrite, hd, hsel, hacq]
    · simp [runSolo, stepReq, Req.arrive, indexHandler, acquirePhase, countPhase,
        delayAndWrite, hd, hacq]
  | none =>
    have hav : semAvailable cfg.indexConcurrency s = true := by
      rcases h with h | h
      · rw [hacq] at h; cases h
      · exact h
    by_cases hd : cfg.simulatedIndexDuration > 0
    · cases hsel : selectCase cfg.simulatedIndexDuration env <;>
        simp [runSolo, stepReq, Req.arrive, indexHandler, acquirePhase, countPhase,
          delayAndWrite, hd, hsel, hacq, hav]
    · simp [runSolo, stepReq, Req.arrive, indexHandler, acquirePhase, countPhase,
        delayAndWrite, hd, hacq, hav]

/-- The requests past the admission point, counted with `countP`. -/
theorem pastAdmission_eq_countP (sys : Sys) :
    sys.pastAdmission = sys.reqs.countP fun r => r.pc.pastAdmission := by
  unfold Sys.pastAdmission
  rw [List.countP_eq_length_filter]

/-- A step of a request whose acquire does not fail keeps the permits in use in
line with whether the request is past the admission point, and within the
semaphore size. -/
theorem stepReq_admitted (cfg : Config) (indexBytes : Bytes) (s s1 : Shared) (r r1 : Req)
    (hacq : r.env.acquire = none) (hle : s.cur ≤ cfg.indexConcurrency)
    (h : stepReq cfg indexBytes s r = some (s1, r1)) :
    r1.env = r.env
    ∧ s1.cur + (if r.pc.pastAdmission then 1 else 0)
        = s.cur + (if r1.pc.pastAdmission then 1 else 0)
    ∧ s1.cur ≤ cfg.indexConcurrency := by
  unfold stepReq at h
  split at h
  · rename_i hpc
    rw [hacq] at h
    simp only [Option.isSome_none, Bool.false_or] at h
    split at h
    · rename_i hav
      simp only [acquirePhase, hacq, Option.some.injEq, Prod.mk.injEq] at h
      obtain ⟨hs, hr⟩ := h
      subst hs; subst hr
      simp only [semAvailable, decide_eq_true_eq] at hav
      simp [hpc, Pc.pastAdmission, semAcquire, hav]
    · cases h
  · rename_i hpc
    simp only [countPhase, Option.some.injEq, Prod.mk.injEq] at h
    obtain ⟨hs, hr⟩ := h
    subst hs; subst hr
    by_cases hd : cfg.simulatedIndexDuration > 0 <;> simp [hpc, hd, Pc.pastAdmission, hle]
  · rename_i hpc
    split at h
    · simp only [Option.some.injEq, Prod.mk.injEq] at h
      obtain ⟨hs, hr⟩ := h
      subst hs; subst hr
      simp [hpc, Pc.pastAdmission, hle]
    · simp only [Option.some.injEq, Prod.mk.injEq] at h
      obtain ⟨hs, hr⟩ := h
      subst hs; subst hr
      simp [hpc, Pc.pastAdmission, hle]
  · rename_i hpc
    simp only [Option.some.injEq, Prod.mk.injEq] at h
    obtain ⟨hs, hr⟩ := h
    subst hs; subst hr
    simp [hpc, Pc.pastAdmission, hle]
  · rename_i hpc
    simp only [Option.some.injEq, Prod.mk.injEq] at h
    obtain ⟨hs, hr⟩ := h
    subst hs; subst hr
    simp only [hpc, Pc.pastAdmission, semRelease]
    refine ⟨trivial, by simp, by simp; omega⟩
  · cases h


/-- A step of the server keeps the invariant. -/
theorem step_bounded (cfg : Config) (indexBytes : Bytes) (sys sys1 : Sys) (i : Nat)
    (hinv : sys.Bounded cfg.indexConcurrency)
    (h : step cfg indexBytes sys i = some sys1) :
    sys1.Bounded cfg.indexConcurrency := by
  obtain ⟨hall, hcur, hle⟩ := hinv
  unfold step at h
  split at h
  · cases h
  · rename_i r hget
    split at h
    · cases h
    · rename_i s1 r1 hstep
      simp only [Option.some.injEq] at h
      subst h
      obtain ⟨hi, hri⟩ := List.get?_eq_some.1 hget
      have hmem : r ∈ sys.reqs := by rw [← hri]; exact List.get_mem _ _ _
      obtain ⟨henv, hbal, hle1⟩ :=
        stepReq_admitted cfg indexBytes sys.shared s1 r r1 (hall r hmem) hle hstep
      refine ⟨?_, ?_, hle1⟩
      · intro q hq
        rcases List.mem_or_eq_of_mem_set hq with hq | hq
        · exact hall q hq
        · rw [hq, henv]; exact hall r hmem
      · rw [pastAdmission_eq_countP] at hcur ⊢
        simp only
        rw [List.countP_set _ _ _ _ hi]
        have hb := List.boole_getElem_le_countP (fun r : Req => r.pc.pastAdmission) sys.reqs i hi
        have hri' : sys.reqs[i] = r := by simpa using hri
        rw [hri'] at hb ⊢
        by_cases h1 : r.pc.pastAdmission = true <;> by_cases h2 : r1.pc.pastAdmission = true <;>
          simp only [h1, h2, if_true, if_false, Bool.false_eq_true] at hb hbal ⊢ <;> omega

/-- A schedule keeps the invariant. -/
theorem runSchedule_bounded (cfg : Config) (indexBytes : Bytes) (sched : List Nat) :
    ∀ (sys sys1 : Sys), sys.Bounded cfg.indexConcurrency →
      runSchedule cfg indexBytes sys sched = some sys1 → sys1.Bounded cfg.indexConcurrency := by
  induction sched with
  | nil =>
    intro sys sys1 hinv h
    simp only [runSchedule, Option.some.injEq] at h
    subst h; exact hinv
  | cons i rest ih =>
    intro sys sys1 hinv h
    unfold runSchedule at h
    split at h
    · cases h
    · rename_i sys2 hstep
      exact ih sys2 sys1 (step_bounded cfg indexBytes sys sys2 i hinv hstep) h

/-- The invariant holds at startup. -/
theorem start_bounded (size : Int) (envs : List ReqEnv) (hsize : 0 ≤ size)
    (hall : ∀ env ∈ envs, env.acquire = none) : (Sys.start envs).Bounded size := by
  refine ⟨?_, ?_, ?_⟩
  · intro r hr
    simp only [Sys.start, List.mem_map] at hr
    obtain ⟨env, henv, rfl⟩ := hr
    exact hall env henv
  · have : (Sys.start envs).pastAdmission = 0 := by
      simp [Sys.pastAdmission, Sys.start, Req.arrive, Pc.pastAdmission]
    rw [this]; rfl
  · exact hsize


/-- When no request's acquire fails, in every state a schedule reaches the
permits in use equal the number of requests past the admission point and lie
between 0 and the semaphore size. -/
theorem admission_bound_without_rejection (cfg : Config) (indexBytes : Bytes)
    (envs : List ReqEnv) (sched : List Nat) (sys : Sys)
    (hsize : 0 ≤ cfg.indexConcurrency)
    (hall : ∀ env ∈ envs, env.acquire = none)
    (hrun : runSchedule cfg indexBytes (Sys.start envs) sched = some sys) :
    (sys.pastAdmission : Int) ≤ cfg.indexConcurrency
    ∧ sys.shared.cur = (sys.pastAdmission : Int)
    ∧ 0 ≤ sys.shared.cur ∧ sys.shared.cur ≤ cfg.indexConcurrency := by
  obtain ⟨_, hcur, hle⟩ := runSchedule_bounded cfg indexBytes sched (Sys.start envs) sys
    (start_bounded cfg.indexConcurrency envs hsize hall) hrun
  refine ⟨?_, hcur, ?_, hle⟩
  · rw [← hcur]; exact hle
  · rw [hcur]; exact Int.natCast_nonneg _

/-! ## The failed acquire

Line 92-94 calls `http.Error` when `sem.Acquire` fails and does not return, so
the handler goes on as if it had been admitted. -/

/-- C1 at a request whose acquire fails while an earlier request holds the only
permit (default flags): after the 500 with the acquire error the handler counts
the request, calls `rw.Write` with the index bytes, which land in the body
after the error message, and releases a permit it never held, leaving none in
use although the earlier request still holds one. -/
theorem rejected_request_falls_through :
    indexHandler {} stubBytes rejectedEnv Shared.oneHeld
      = ({ cur := 0, count := 2 },
          [Event.acquire (some "context canceled"),
            Event.httpError "context canceled" 500,
            Event.addCount 2, Event.logServing 2,
            Event.write stubBytes none, Event.release])
    ∧ responseStatus (indexHandler {} stubBytes rejectedEnv Shared.oneHeld).2 = some 500
    ∧ responseBody (indexHandler {} stubBytes rejectedEnv Shared.oneHeld).2
        = ["context canceled", stubBytes]
    ∧ writeCalled stubBytes (indexHandler {} stubBytes rejectedEnv Shared.oneHeld).2 = true := by
  refine ⟨?_, ?_, ?_, ?_⟩ <;> rfl

/-- C2 at a request whose acquire fails (delay 5000, an earlier request holds
the only permit): the run has no successful acquire and one release, and the
permits in use drop from 1 to 0. -/
theorem rejected_request_releases :
    (indexHandler { simulatedIndexDuration := 5000 } stubBytes rejectedEnv Shared.oneHeld).2
      = [Event.acquire (some "context canceled"),
          Event.httpError "context canceled" 500,
          Event.addCount 2, Event.logServing 2,
          Event.selectDone, Event.httpError "context canceled" 500, Event.release]
    ∧ acquireOkCount
        (indexHandler { simulatedIndexDuration := 5000 } stubBytes rejectedEnv Shared.oneHeld).2
        = 0
    ∧ releaseCount
        (indexHandler { simulatedIndexDuration := 5000 } stubBytes rejectedEnv Shared.oneHeld).2
        = 1
    ∧ (indexHandler { simulatedIndexDuration := 5000 } stubBytes rejectedEnv Shared.oneHeld).1.cur
        = 0 := by
  refine ⟨?_, ?_, ?_, ?_⟩ <;> rfl

/-- C3 with one permit and two requests, the second cancelled while it waits:
after the schedule 0,0,1,1 both requests are in the write phase although the
semaphore counts one permit in use; after both have finished the count of
permits in use is -1. -/
theorem admission_bound_broken :
    (runSchedule {} stubBytes (Sys.start [plainEnv, rejectedEnv]) [0, 0, 1, 1]).map
        (fun sys => (sys.reqs.map fun r => r.pc, sys.inDelayOrWrite, sys.pastAdmission,
          sys.shared.cur))
      = some ([Pc.writing, Pc.writing], 2, 2, 1)
    ∧ (runSchedule {} stubBytes (Sys.start [plainEnv, rejectedEnv])
          [0, 0, 1, 1, 1, 1, 0, 0]).map
        (fun sys => (sys.reqs.map fun r => r.pc, sys.shared.cur))
      = some ([Pc.finished, Pc.finished], -1) := by
  refine ⟨?_, ?_⟩ <;> rfl

/-- C10: every run of the handler, whatever its acquire returned, adds one to
the counter; with one permit and two requests, the second cancelled while it
waits, the counter reaches 2 and the rejected request logs ordinal 2 although
one request was accepted. -/
theorem rejected_request_counted :
    (∀ (cfg : Config) (indexBytes : Bytes) (env : ReqEnv) (s : Shared),
      (indexHandler cfg indexBytes env s).1.count = wrapInt32 (s.count + 1))
    ∧ (runSchedule {} stubBytes (Sys.start [plainEnv, rejectedEnv]) [0, 0, 1, 1]).map
        (fun sys => (sys.shared.count, sys.accepted, sys.ordinals))
      = some (2, 1, [[1], [2]]) := by
  refine ⟨?_, rfl⟩
  intro cfg indexBytes env s
  unfold indexHandler acquirePhase countPhase
  cases env.acquire <;> simp [semAcquire, semRelease]

end FakeSlowRegistry
